import Mathlib

/-!
Shallow embedding of `src/app.py` (a Streamlit OCR + normalization pipeline).

The program has three parts relevant to the specification:
  * input normalization: `encode_file_to_base64`, `get_file_from_url`;
  * the per-document pipeline `process_document`, which calls the external
    OCR engine and then the external chat engine;
  * the batch loop under the start button, which writes into the
    session result store (a Python dict keyed by document name).

External services are modelled as oracles (`OcrOutcome`, `ChatOutcome`):
each document's processing consumes one OCR outcome and, when reached,
one chat outcome.  Python byte strings are `List Nat` with entries `< 256`,
Python dicts are association lists with in-place update (Python dict
semantics: assignment to an existing key keeps its position, a new key is
appended).
-/

namespace MistralOcrApp

/-- A page returned by the OCR engine; it exposes a `markdown` text field. -/
structure Page where
  markdown : String
deriving Repr, DecidableEq

/-- Outcome of a `client.ocr.process` call: the call raises an exception
with a message, or returns a (possibly empty) list of pages. -/
inductive OcrOutcome where
  | raises (msg : String)
  | pages (ps : List Page)
deriving Repr, DecidableEq

/-- Outcome of a `client.chat.complete` call: the call raises, or returns
generated text (the first choice's message content). -/
inductive ChatOutcome where
  | raises (msg : String)
  | content (text : String)
deriving Repr, DecidableEq

/-- Mirror of the `results` dict built by `process_document`: each field is
`none` exactly when the corresponding key is absent from the dict. -/
structure DocumentResult where
  raw_ocr : Option String := none
  pages_count : Option Nat := none
  normalized : Option String := none
  error : Option String := none
deriving Repr, DecidableEq

/-- The page header inserted before each page in `process_document`:
`header = f"\n\n--- Pagina {i+1} ---\n\n"` (note: Italian `Pagina`). -/
def pageHeader (n : Nat) : String :=
  "\n\n--- Pagina " ++ toString n ++ " ---\n\n"

/-- The accumulation loop
`for i, page in enumerate(ocr_response.pages): full_markdown += header + page.markdown`,
with `i` starting at the given index. -/
def fullMarkdownAux : Nat → List Page → String
  | _, [] => ""
  | i, p :: rest => pageHeader (i + 1) ++ p.markdown ++ fullMarkdownAux (i + 1) rest

/-- `full_markdown` as built by `process_document` from the OCR pages. -/
def fullMarkdown (ps : List Page) : String :=
  fullMarkdownAux 0 ps

/-- `process_document(client, file_base64, model_ocr, model_chat)` from
`src/app.py`, with the two API calls replaced by their outcomes.  Returns
the `results` dict together with the number of chat-engine invocations. -/
def process_document (ocr : OcrOutcome) (chat : ChatOutcome) :
    DocumentResult × Nat :=
  match ocr with
  | .raises msg =>
      ({ error := some ("Errore API OCR: " ++ msg) }, 0)
  | .pages ps =>
      if ps.length > 0 then
        let raw := fullMarkdown ps
        match chat with
        | .content text =>
            ({ raw_ocr := some raw, pages_count := some ps.length,
               normalized := some text }, 1)
        | .raises msg =>
            ({ raw_ocr := some raw, pages_count := some ps.length,
               normalized := some ("Errore Normalizzazione: " ++ msg) }, 1)
      else
        ({ error := some "L'OCR ha completato l'analisi ma non ha rilevato testo." }, 0)

/-! ## Input normalization -/

/-- The base64 alphabet, in index order. -/
def b64chars : List Char :=
  "ABCDEFGHIJKLMNOPQRSTUVWXYZabcdefghijklmnopqrstuvwxyz0123456789+/".toList

/-- The base64 digit for a sextet value. -/
def b64char (n : Nat) : Char :=
  b64chars.getD n '='

/-- Standard base64 of a byte string (`base64.b64encode`): three bytes become
four digits; a final group of one or two bytes is padded with `=`. -/
def b64encode : List Nat → List Char
  | [] => []
  | [a] =>
      [b64char (a / 4), b64char (a % 4 * 16), '=', '=']
  | [a, b] =>
      [b64char (a / 4), b64char (a % 4 * 16 + b / 16), b64char (b % 16 * 4), '=']
  | a :: b :: c :: rest =>
      b64char (a / 4) :: b64char (a % 4 * 16 + b / 16) ::
      b64char (b % 16 * 4 + c / 64) :: b64char (c % 64) :: b64encode rest

/-- The sextet value of a base64 digit. -/
def b64val (c : Char) : Nat :=
  b64chars.indexOf c

/-- Standard base64 decoding of the encoder's output: four digits at a time,
with trailing `=` padding cutting the last group to one or two bytes. -/
def b64decode : List Char → List Nat
  | c1 :: c2 :: c3 :: c4 :: rest =>
      if c3 = '=' then
        [b64val c1 * 4 + b64val c2 / 16]
      else if c4 = '=' then
        [b64val c1 * 4 + b64val c2 / 16, b64val c2 % 16 * 16 + b64val c3 / 4]
      else
        (b64val c1 * 4 + b64val c2 / 16) ::
        (b64val c2 % 16 * 16 + b64val c3 / 4) ::
        (b64val c3 % 4 * 64 + b64val c4) :: b64decode rest
  | _ => []

/-- `encode_file_to_base64(file_bytes, mime_type)` from `src/app.py`:
`f"data:{mime_type};base64,{encoded_string}"`.  (The `except` branch is
modelled separately as an oracle in the batch loop, since `b64encode`
itself is total.) -/
def encode_file_to_base64 (file_bytes : List Nat) (mime_type : String) : String :=
  "data:" ++ mime_type ++ ";base64," ++ String.mk (b64encode file_bytes)

/-- Read the declared media type back from a `data:` URI: the characters
between `data:` and the first `;`. -/
def parseMediaType : List Char → Option (List Char)
  | 'd' :: 'a' :: 't' :: 'a' :: ':' :: rest =>
      some (rest.takeWhile (fun c => c ≠ ';'))
  | _ => none

/-- Media type declared by an encoded payload string. -/
def dataUriMediaType (s : String) : Option String :=
  (parseMediaType s.data).map String.mk

/-- Python `s.lower()` (ASCII case folding suffices for the media-type
suffixes at issue). -/
def pyLower (s : String) : String :=
  String.mk (s.data.map Char.toLower)

/-- Python `s.endswith(suffix)`. -/
def pyEndsWith (s suffix : String) : Bool :=
  List.isSuffixOf suffix.data s.data

/-- Media-type resolution of `get_file_from_url(url)` from `src/app.py`:
start from the `content-type` header (defaulting to `application/pdf` when
the header is absent), then override from the lower-cased URL's suffix. -/
def resolve_content_type (url : String) (header : Option String) : String :=
  let content_type := header.getD "application/pdf"
  if pyEndsWith (pyLower url) ".pdf" then "application/pdf"
  else if pyEndsWith (pyLower url) ".jpg" || pyEndsWith (pyLower url) ".jpeg" then "image/jpeg"
  else if pyEndsWith (pyLower url) ".png" then "image/png"
  else content_type

/-! ## Batch loop and result store -/

/-- The mime type passed to `encode_file_to_base64` by the batch loop:
`"application/pdf"` when `mime == "application/pdf"`, otherwise
`mime if mime else "image/jpeg"` (Python: `None` and `""` are falsy). -/
def chosenMime (mime : Option String) : String :=
  match mime with
  | some m =>
      if m = "application/pdf" then "application/pdf"
      else if m = "" then "image/jpeg" else m
  | none => "image/jpeg"

/-- One entry of `input_data` together with the oracle outcomes its
processing consumes: whether `encode_file_to_base64` raises (in the source
a raised encoding error yields `base64_file = None`), and the OCR and chat
outcomes for `process_document`. -/
structure BatchItem where
  name : String
  bytes : List Nat
  mime : Option String
  encOk : Bool
  ocr : OcrOutcome
  chat : ChatOutcome

/-- The encoded payload the batch loop sends to the OCR engine for an item
(when encoding succeeds). -/
def batchPayload (item : BatchItem) : String :=
  encode_file_to_base64 item.bytes (chosenMime item.mime)

/-- The session result store: a Python dict from document name to result,
modelled as an association list in insertion order. -/
abbrev ResultStore := List (String × DocumentResult)

/-- Python dict assignment `st.session_state.results[name] = res`: an
existing key keeps its position and its value is replaced; a new key is
appended at the end. -/
def dictInsert (store : ResultStore) (k : String) (v : DocumentResult) :
    ResultStore :=
  if store.any (fun p => p.1 = k) then
    store.map (fun p => if p.1 = k then (k, v) else p)
  else
    store ++ [(k, v)]

/-- Python dict lookup `store.get(name)`. -/
def dictFind (store : ResultStore) (k : String) : Option DocumentResult :=
  match store with
  | [] => none
  | p :: rest => if p.1 = k then some p.2 else dictFind rest k

/-- The batch loop under `if start_processing:` in `src/app.py`: for each
item, encode (skipping the item when encoding raised), run
`process_document`, and store the result under the item's name. -/
def start_processing (items : List BatchItem) (store : ResultStore) :
    ResultStore :=
  match items with
  | [] => store
  | item :: rest =>
      let store' :=
        if item.encOk then
          dictInsert store item.name (process_document item.ocr item.chat).1
        else store
      start_processing rest store'

/-! ## Spec-side definitions (for refinement-style claims) -/

/-- Concatenation of a list of strings, in order. -/
def concatStrings : List String → String
  | [] => ""
  | s :: rest => s ++ concatStrings rest

/-- Raw text as the specification words it: the concatenation, in index
order, of the page-boundary marker (1-based page number) followed by the
page's markdown text. -/
def specRawText (ps : List Page) : String :=
  concatStrings (ps.enum.map (fun q => pageHeader (q.1 + 1) ++ q.2.markdown))

/-- Media-type resolution as the specification words it: (a) extension of
the URL first, then (b) the declared content-type header, then (c) the
default `application/pdf`. -/
def specMediaPrecedence (url : String) (header : Option String) : String :=
  if pyEndsWith (pyLower url) ".pdf" then "application/pdf"
  else if pyEndsWith (pyLower url) ".jpg" || pyEndsWith (pyLower url) ".jpeg" then "image/jpeg"
  else if pyEndsWith (pyLower url) ".png" then "image/png"
  else
    match header with
    | some h => h
    | none => "application/pdf"

/-! ## Helper lemmas -/

lemma fullMarkdownAux_eq_enumFrom (ps : List Page) :
    ∀ i, fullMarkdownAux i ps =
      concatStrings ((ps.enumFrom i).map (fun q => pageHeader (q.1 + 1) ++ q.2.markdown)) := by
  induction ps with
  | nil => intro i; rfl
  | cons p rest ih =>
      intro i
      simp only [fullMarkdownAux, List.enumFrom, List.map_cons, concatStrings, ih (i + 1)]

lemma fullMarkdown_eq_specRawText (ps : List Page) :
    fullMarkdown ps = specRawText ps := by
  simpa [specRawText, List.enum] using fullMarkdownAux_eq_enumFrom ps 0

/-! ## Base64 lemmas -/

lemma b64val_b64char : ∀ n < 64, b64val (b64char n) = n := by decide

lemma b64char_ne_pad : ∀ n < 64, b64char n ≠ '=' := by decide

theorem b64decode_b64encode : ∀ l : List Nat, (∀ x ∈ l, x < 256) →
    b64decode (b64encode l) = l := by
  intro l
  induction l using b64encode.induct with
  | case1 => intro _; rfl
  | case2 a =>
      intro h
      have ha : a < 256 := h a (by simp)
      simp only [b64encode, b64decode]
      rw [if_pos trivial]
      rw [b64val_b64char _ (by omega), b64val_b64char _ (by omega)]
      have e1 : a / 4 * 4 + a % 4 * 16 / 16 = a := by omega
      rw [e1]
  | case3 a b =>
      intro h
      have ha : a < 256 := h a (by simp)
      have hb : b < 256 := h b (by simp)
      simp only [b64encode, b64decode]
      rw [if_neg (b64char_ne_pad _ (by omega)), if_pos trivial]
      rw [b64val_b64char _ (by omega), b64val_b64char _ (by omega),
        b64val_b64char _ (by omega)]
      have e1 : a / 4 * 4 + (a % 4 * 16 + b / 16) / 16 = a := by omega
      have e2 : (a % 4 * 16 + b / 16) % 16 * 16 + b % 16 * 4 / 4 = b := by omega
      rw [e1, e2]
  | case4 a b c rest ih =>
      intro h
      have ha : a < 256 := h a (by simp)
      have hb : b < 256 := h b (by simp)
      have hc : c < 256 := h c (by simp)
      have hrest : ∀ x ∈ rest, x < 256 := fun x hx => h x (by simp [hx])
      simp only [b64encode, b64decode]
      rw [if_neg (b64char_ne_pad _ (by omega)), if_neg (b64char_ne_pad _ (by omega))]
      rw [b64val_b64char _ (by omega), b64val_b64char _ (by omega),
        b64val_b64char _ (by omega), b64val_b64char _ (by omega)]
      have e1 : a / 4 * 4 + (a % 4 * 16 + b / 16) / 16 = a := by omega
      have e2 : (a % 4 * 16 + b / 16) % 16 * 16 + (b % 16 * 4 + c / 64) / 4 = b := by
        omega
      have e3 : (b % 16 * 4 + c / 64) % 4 * 64 + c % 64 = c := by omega
      rw [e1, e2, e3, ih hrest]

lemma takeWhile_until_semicolon (l t : List Char) (h : ';' ∉ l) :
    (l ++ ';' :: t).takeWhile (fun c => c ≠ ';') = l := by
  induction l with
  | nil => simp [List.takeWhile_cons]
  | cons c l ih =>
      simp only [List.mem_cons, not_or] at h
      have hc : c ≠ ';' := fun e => h.1 e.symm
      rw [List.cons_append, List.takeWhile_cons, if_pos (by simp [hc]), ih h.2]

lemma dataUriMediaType_encode (bytes : List Nat) (m : String)
    (hm : ';' ∉ m.data) :
    dataUriMediaType (encode_file_to_base64 bytes m) = some m := by
  unfold dataUriMediaType encode_file_to_base64
  rw [String.data_append, String.data_append, String.data_append]
  have h1 : "data:".data = ['d', 'a', 't', 'a', ':'] := rfl
  have h2 : ";base64,".data = ';' :: "base64,".data := rfl
  rw [h1, h2, List.append_assoc]
  show (parseMediaType
      ('d' :: 'a' :: 't' :: 'a' :: ':' ::
        (m.data ++ (';' :: "base64,".data ++ (String.mk (b64encode bytes)).data)))).map
      String.mk = some m
  simp only [parseMediaType, List.cons_append]
  rw [takeWhile_until_semicolon m.data _ hm]
  rfl

/-! ## Claims -/

/-- **C1, counterexample.**  The claim's marker is the literal
`\n\n--- Page <n> ---\n\n`; the code writes `\n\n--- Pagina <n> ---\n\n`
(Italian).  For a single OCR page with markdown `"x"`, the produced
`raw_ocr` is not the claimed concatenation. -/
theorem C1_page_marker_counterexample :
    (process_document (.pages [⟨"x"⟩]) (.content "y")).1.raw_ocr ≠
      some ("\n\n--- Page 1 ---\n\n" ++ "x") := by
  decide

/-- **C1, amended.**  For N ≥ 1 OCR pages, `raw_ocr` equals the
concatenation, in index order, of the literal marker
`\n\n--- Pagina <n> ---\n\n` (1-based page number) followed by that page's
markdown — exhibiting exactly N page-boundary markers in increasing
page-number order starting at 1 — and `pages_count` equals N, whatever the
chat outcome. -/
theorem C1_page_concatenation (ps : List Page) (h : 1 ≤ ps.length)
    (c : ChatOutcome) :
    (process_document (.pages ps) c).1.raw_ocr = some (specRawText ps) ∧
    (process_document (.pages ps) c).1.pages_count = some ps.length := by
  have hpos : ps.length > 0 := h
  cases c <;>
    simp [process_document, hpos, fullMarkdown_eq_specRawText]

theorem C1_page_concatenation_witness :
    1 ≤ ([⟨"x"⟩, ⟨"y"⟩] : List Page).length ∧
    (process_document (.pages [⟨"x"⟩, ⟨"y"⟩]) (.content "z")).1.raw_ocr =
      some (specRawText [⟨"x"⟩, ⟨"y"⟩]) ∧
    (process_document (.pages [⟨"x"⟩, ⟨"y"⟩]) (.content "z")).1.pages_count = some 2 :=
  ⟨by decide, (C1_page_concatenation [⟨"x"⟩, ⟨"y"⟩] (by decide) (.content "z")).1,
    (C1_page_concatenation [⟨"x"⟩, ⟨"y"⟩] (by decide) (.content "z")).2⟩

/-- **C2.**  If the OCR call raises, or returns zero pages, the result has
a descriptive `error`, no `raw_ocr` and no `normalized` text, and the chat
engine is invoked zero times. -/
theorem C2_ocr_failure_aborts (msg : String) (c : ChatOutcome) :
    ((process_document (.raises msg) c).1.error =
        some ("Errore API OCR: " ++ msg) ∧
      (process_document (.raises msg) c).1.raw_ocr = none ∧
      (process_document (.raises msg) c).1.normalized = none ∧
      (process_document (.raises msg) c).2 = 0) ∧
    ((process_document (.pages []) c).1.error =
        some "L'OCR ha completato l'analisi ma non ha rilevato testo." ∧
      (process_document (.pages []) c).1.raw_ocr = none ∧
      (process_document (.pages []) c).1.normalized = none ∧
      (process_document (.pages []) c).2 = 0) := by
  refine ⟨⟨rfl, rfl, rfl, rfl⟩, ?_⟩
  simp [process_document]

/-- **C3.**  If OCR succeeded with at least one page and the chat call
raises, `error` stays unset, `raw_ocr` is exactly the OCR concatenation,
and `normalized` is the descriptive error string. -/
theorem C3_chat_failure_preserves_raw (ps : List Page) (h : 1 ≤ ps.length)
    (msg : String) :
    (process_document (.pages ps) (.raises msg)).1.error = none ∧
    (process_document (.pages ps) (.raises msg)).1.raw_ocr =
      some (fullMarkdown ps) ∧
    (process_document (.pages ps) (.raises msg)).1.normalized =
      some ("Errore Normalizzazione: " ++ msg) := by
  have hpos : ps.length > 0 := h
  simp [process_document, hpos]

theorem C3_chat_failure_preserves_raw_witness :
    1 ≤ ([⟨"x"⟩] : List Page).length ∧
    ((process_document (.pages [⟨"x"⟩]) (.raises "boom")).1.error = none ∧
      (process_document (.pages [⟨"x"⟩]) (.raises "boom")).1.raw_ocr =
        some (fullMarkdown [⟨"x"⟩]) ∧
      (process_document (.pages [⟨"x"⟩]) (.raises "boom")).1.normalized =
        some ("Errore Normalizzazione: " ++ "boom")) :=
  ⟨by decide, C3_chat_failure_preserves_raw [⟨"x"⟩] (by decide) "boom"⟩

/-- **C5.**  The source's media-type resolution (header default first, then
extension override) equals the spec's stated precedence (extension, then
header, then default); in particular a `.pdf` URL served as `text/html`
resolves to `application/pdf`. -/
theorem C5_media_type_precedence (url : String) (header : Option String) :
    resolve_content_type url header = specMediaPrecedence url header ∧
    resolve_content_type "https://example.org/scan.pdf" (some "text/html") =
      "application/pdf" := by
  constructor
  · unfold resolve_content_type specMediaPrecedence
    cases header <;> simp
  · decide

/-- **C8.**  Every result produced by the pipeline satisfies the
invariant: a populated `error` forces absent `raw_ocr` and `normalized`;
`error` is populated exactly when the successful pair is not; and
`pages_count` is recorded (and then `≥ 1`, with `error` unset) only on OCR
success. -/
theorem C8_result_invariant (ocr : OcrOutcome) (chat : ChatOutcome) :
    ((process_document ocr chat).1.error.isSome →
      (process_document ocr chat).1.raw_ocr = none ∧
      (process_document ocr chat).1.normalized = none) ∧
    ((process_document ocr chat).1.error.isSome ↔
      ¬ ((process_document ocr chat).1.raw_ocr.isSome ∧
         (process_document ocr chat).1.normalized.isSome)) ∧
    (∀ n, (process_document ocr chat).1.pages_count = some n →
      1 ≤ n ∧ (process_document ocr chat).1.error = none) := by
  cases ocr with
  | raises msg => cases chat <;> simp [process_document]
  | pages ps =>
      by_cases hps : ps.length > 0 <;>
        cases chat <;> simp_all [process_document] <;> omega

theorem C8_result_invariant_witness :
    (process_document (.pages [⟨"x"⟩]) (.content "y")).1.pages_count = some 1 ∧
    (1 ≤ 1 ∧ (process_document (.pages [⟨"x"⟩]) (.content "y")).1.error = none) :=
  ⟨by decide,
    (C8_result_invariant (.pages [⟨"x"⟩]) (.content "y")).2.2 1 (by decide)⟩

/-- **C10.**  In the batch loop, an empty or absent declared media type
falls back to `image/jpeg` in the payload sent to the OCR engine, while a
non-empty non-PDF media type is passed through unchanged. -/
theorem C10_mime_fallback (m : String) (h1 : m ≠ "")
    (h2 : m ≠ "application/pdf") (bytes : List Nat) (name : String)
    (ocr : OcrOutcome) (chat : ChatOutcome) :
    chosenMime none = "image/jpeg" ∧
    chosenMime (some "") = "image/jpeg" ∧
    chosenMime (some m) = m ∧
    batchPayload { name := name, bytes := bytes, mime := none,
                   encOk := true, ocr := ocr, chat := chat } =
      encode_file_to_base64 bytes "image/jpeg" ∧
    batchPayload { name := name, bytes := bytes, mime := some m,
                   encOk := true, ocr := ocr, chat := chat } =
      encode_file_to_base64 bytes m ∧
    dataUriMediaType
      (batchPayload { name := name, bytes := bytes, mime := none,
                      encOk := true, ocr := ocr, chat := chat }) =
      some "image/jpeg" := by
  refine ⟨rfl, rfl, ?_, rfl, ?_, ?_⟩
  · simp [chosenMime, h1, h2]
  · simp [chosenMime, batchPayload, h1, h2]
  · exact dataUriMediaType_encode bytes "image/jpeg" (by decide)

theorem C10_mime_fallback_witness :
    ("image/png" ≠ "" ∧ "image/png" ≠ "application/pdf") ∧
    chosenMime (some "image/png") = "image/png" :=
  ⟨⟨by decide, by decide⟩,
    (C10_mime_fallback "image/png" (by decide) (by decide) [0] "a"
      (.raises "x") (.content "y")).2.2.1⟩

/-! ## Result-store lemmas -/

lemma any_map_update (s : ResultStore) (k : String) (v : DocumentResult) :
    (s.map (fun p => if p.1 = k then (k, v) else p)).any (fun p => p.1 = k) =
      s.any (fun p => p.1 = k) := by
  induction s with
  | nil => rfl
  | cons q s ih => by_cases hq : q.1 = k <;> simp [hq, ih]

lemma map_update_of_any_false (s : ResultStore) (k : String) (v : DocumentResult)
    (h : s.any (fun p => p.1 = k) = false) :
    s.map (fun p => if p.1 = k then (k, v) else p) = s := by
  induction s with
  | nil => rfl
  | cons q s ih =>
      simp only [List.any_cons, Bool.or_eq_false_iff] at h
      have hq : ¬ q.1 = k := by simpa using h.1
      simp [hq, ih h.2]

lemma anyKey_dictInsert (s : ResultStore) (k : String) (v : DocumentResult) :
    (dictInsert s k v).any (fun p => p.1 = k) = true := by
  unfold dictInsert
  by_cases h : s.any (fun p => p.1 = k) = true
  · simp only [h, if_true]
    rw [any_map_update]
    exact h
  · simp [h, List.any_append]

lemma dictInsert_dictInsert (s : ResultStore) (k : String)
    (v1 v2 : DocumentResult) :
    dictInsert (dictInsert s k v1) k v2 = dictInsert s k v2 := by
  by_cases h : s.any (fun p => p.1 = k) = true
  · have h1 : dictInsert s k v1 =
        s.map (fun p => if p.1 = k then (k, v1) else p) := by
      simp [dictInsert, h]
    have h2 : (s.map (fun p => if p.1 = k then (k, v1) else p)).any
        (fun p => p.1 = k) = true := by
      rw [any_map_update]; exact h
    have h3 : dictInsert (s.map (fun p => if p.1 = k then (k, v1) else p)) k v2 =
        (s.map (fun p => if p.1 = k then (k, v1) else p)).map
          (fun p => if p.1 = k then (k, v2) else p) := by
      simp [dictInsert, h2]
    have h4 : dictInsert s k v2 =
        s.map (fun p => if p.1 = k then (k, v2) else p) := by
      simp [dictInsert, h]
    rw [h1, h3, List.map_map, h4]
    apply List.map_congr_left
    intro p _
    by_cases hp : p.1 = k <;> simp [hp]
  · have hne := eq_false_of_ne_true h
    have h1 : dictInsert s k v1 = s ++ [(k, v1)] := by simp [dictInsert, hne]
    have h2 : ((s ++ [(k, v1)]).any (fun p => p.1 = k)) = true := by
      simp [List.any_append]
    have h3 : dictInsert (s ++ [(k, v1)]) k v2 =
        (s ++ [(k, v1)]).map (fun p => if p.1 = k then (k, v2) else p) := by
      simp [dictInsert, h2]
    have h4 : dictInsert s k v2 = s ++ [(k, v2)] := by simp [dictInsert, hne]
    rw [h1, h3, List.map_append, map_update_of_any_false s k v2 hne, h4]
    simp

lemma keys_dictInsert (s : ResultStore) (k : String) (v : DocumentResult) :
    (dictInsert s k v).map Prod.fst =
      if s.any (fun p => p.1 = k) then s.map Prod.fst
      else s.map Prod.fst ++ [k] := by
  by_cases h : s.any (fun p => p.1 = k) = true
  · have h1 : dictInsert s k v =
        s.map (fun p => if p.1 = k then (k, v) else p) := by
      simp [dictInsert, h]
    rw [h1, if_pos h, List.map_map]
    apply List.map_congr_left
    intro p _
    by_cases hp : p.1 = k <;> simp [hp]
  · have hne := eq_false_of_ne_true h
    have h1 : dictInsert s k v = s ++ [(k, v)] := by simp [dictInsert, hne]
    rw [h1, if_neg h, List.map_append]
    rfl

lemma count_keys_dictInsert (s : ResultStore) (k : String) (v : DocumentResult)
    (h : (s.map Prod.fst).Nodup) :
    ((dictInsert s k v).map Prod.fst).count k = 1 := by
  rw [keys_dictInsert]
  by_cases ha : s.any (fun p => p.1 = k) = true
  · rw [if_pos ha]
    rcases List.any_eq_true.mp ha with ⟨p, hp, hpk⟩
    have hk : k ∈ s.map Prod.fst :=
      List.mem_map.mpr ⟨p, hp, of_decide_eq_true hpk⟩
    exact List.count_eq_one_of_mem h hk
  · rw [if_neg ha, List.count_append]
    have hk : k ∉ s.map Prod.fst := by
      intro hmem
      rcases List.mem_map.mp hmem with ⟨p, hp, hpk⟩
      exact ha (List.any_eq_true.mpr ⟨p, hp, decide_eq_true hpk⟩)
    rw [List.count_eq_zero.mpr hk]
    simp

lemma dictFind_map_update_ne (s : ResultStore) (k : String) (v : DocumentResult)
    (n : String) (h : k ≠ n) :
    dictFind (s.map (fun p => if p.1 = k then (k, v) else p)) n = dictFind s n := by
  induction s with
  | nil => rfl
  | cons q s ih =>
      have h' : n ≠ k := Ne.symm h
      by_cases hq : q.1 = k
      · have hqn : ¬ q.1 = n := fun e => h (hq.symm.trans e)
        simp [dictFind, hq, hqn, h, h', ih]
      · by_cases hqn : q.1 = n <;> simp [dictFind, hq, hqn, h, h', ih]

lemma dictFind_append_single_ne (s : ResultStore) (k : String)
    (v : DocumentResult) (n : String) (h : k ≠ n) :
    dictFind (s ++ [(k, v)]) n = dictFind s n := by
  induction s with
  | nil => simp [dictFind, h]
  | cons q s ih => by_cases hq : q.1 = n <;> simp [dictFind, hq, ih]

lemma dictFind_map_update (s : ResultStore) (k : String) (v : DocumentResult)
    (h : s.any (fun p => p.1 = k) = true) :
    dictFind (s.map (fun p => if p.1 = k then (k, v) else p)) k = some v := by
  induction s with
  | nil => simp at h
  | cons q s ih =>
      by_cases hq : q.1 = k
      · simp [dictFind, hq]
      · simp only [List.any_cons, Bool.or_eq_true] at h
        have hs : s.any (fun p => p.1 = k) = true := by
          rcases h with h | h
          · exact absurd (of_decide_eq_true h) hq
          · exact h
        simp [dictFind, hq, ih hs]

lemma dictFind_append_single (s : ResultStore) (k : String) (v : DocumentResult)
    (h : s.any (fun p => p.1 = k) = false) :
    dictFind (s ++ [(k, v)]) k = some v := by
  induction s with
  | nil => simp [dictFind]
  | cons q s ih =>
      simp only [List.any_cons, Bool.or_eq_false_iff] at h
      have hq : ¬ q.1 = k := by simpa using h.1
      simpa [dictFind, hq] using ih h.2

lemma dictFind_dictInsert (s : ResultStore) (k : String) (v : DocumentResult) :
    dictFind (dictInsert s k v) k = some v := by
  by_cases h : s.any (fun p => p.1 = k) = true
  · have h1 : dictInsert s k v =
        s.map (fun p => if p.1 = k then (k, v) else p) := by
      simp [dictInsert, h]
    rw [h1]
    exact dictFind_map_update s k v h
  · have hne := eq_false_of_ne_true h
    have h1 : dictInsert s k v = s ++ [(k, v)] := by simp [dictInsert, hne]
    rw [h1]
    exact dictFind_append_single s k v hne

lemma dictFind_dictInsert_ne (s : ResultStore) (k : String) (v : DocumentResult)
    (n : String) (h : k ≠ n) :
    dictFind (dictInsert s k v) n = dictFind s n := by
  by_cases ha : s.any (fun p => p.1 = k) = true
  · have h1 : dictInsert s k v =
        s.map (fun p => if p.1 = k then (k, v) else p) := by
      simp [dictInsert, ha]
    rw [h1]
    exact dictFind_map_update_ne s k v n h
  · have hne := eq_false_of_ne_true ha
    have h1 : dictInsert s k v = s ++ [(k, v)] := by simp [dictInsert, hne]
    rw [h1]
    exact dictFind_append_single_ne s k v n h

/-! ## Batch-loop lemmas -/

lemma start_processing_append (as bs : List BatchItem) (store : ResultStore) :
    start_processing (as ++ bs) store =
      start_processing bs (start_processing as store) := by
  induction as generalizing store with
  | nil => rfl
  | cons a as ih => simp only [List.cons_append, start_processing]; exact ih _

lemma dictFind_start_processing_of_name_ne (ys : List BatchItem)
    (store : ResultStore) (n : String) (h : ∀ y ∈ ys, y.name ≠ n) :
    dictFind (start_processing ys store) n = dictFind store n := by
  induction ys generalizing store with
  | nil => rfl
  | cons y ys ih =>
      simp only [start_processing]
      rw [ih _ (fun z hz => h z (List.mem_cons_of_mem y hz))]
      cases he : y.encOk
      · simp
      · simp only [if_true]
        exact dictFind_dictInsert_ne _ _ _ _ (h y (List.mem_cons_self y ys))

/-- **C4, counterexample.**  When encoding fails for a document, the batch
loop skips `process_document` *and* the store write (`if base64_file:`),
so no entry for that document — in particular no recorded `error` — ever
reaches the Result Store, contrary to the claim. -/
theorem C4_no_store_entry_counterexample :
    start_processing
      [{ name := "a", bytes := [0], mime := some "application/pdf",
         encOk := false, ocr := .raises "x", chat := .content "y" }] [] = [] ∧
    dictFind
      (start_processing
        [{ name := "a", bytes := [0], mime := some "application/pdf",
           encOk := false, ocr := .raises "x", chat := .content "y" }] []) "a" =
      none := by
  exact ⟨rfl, rfl⟩

/-- **C4, amended.**  A base64 encoding failure aborts only the affected
document: the batch continues exactly as if that document were absent, so
every other document is still processed; the failed document leaves no
trace in the Result Store (its error is only displayed, not recorded). -/
theorem C4_encoding_failure_isolated (xs ys : List BatchItem) (bad : BatchItem)
    (h : bad.encOk = false) (store : ResultStore) :
    start_processing (xs ++ bad :: ys) store = start_processing (xs ++ ys) store := by
  induction xs generalizing store with
  | nil => simp [start_processing, h]
  | cons x xs ih =>
      simp only [List.cons_append, start_processing]
      exact ih _

theorem C4_encoding_failure_isolated_witness :
    ({ name := "b", bytes := [1], mime := some "image/png", encOk := false,
       ocr := OcrOutcome.raises "x", chat := ChatOutcome.content "y" :
       BatchItem }).encOk = false ∧
    start_processing
      [{ name := "a", bytes := [0], mime := none, encOk := true,
         ocr := .pages [⟨"p"⟩], chat := .content "n" },
       { name := "b", bytes := [1], mime := some "image/png", encOk := false,
         ocr := .raises "x", chat := .content "y" },
       { name := "c", bytes := [2], mime := none, encOk := true,
         ocr := .pages [⟨"q"⟩], chat := .content "m" }] [] =
    start_processing
      [{ name := "a", bytes := [0], mime := none, encOk := true,
         ocr := .pages [⟨"p"⟩], chat := .content "n" },
       { name := "c", bytes := [2], mime := none, encOk := true,
         ocr := .pages [⟨"q"⟩], chat := .content "m" }] [] :=
  ⟨rfl,
    C4_encoding_failure_isolated
      [{ name := "a", bytes := [0], mime := none, encOk := true,
         ocr := .pages [⟨"p"⟩], chat := .content "n" }]
      [{ name := "c", bytes := [2], mime := none, encOk := true,
         ocr := .pages [⟨"q"⟩], chat := .content "m" }]
      { name := "b", bytes := [1], mime := some "image/png", encOk := false,
        ocr := .raises "x", chat := .content "y" } rfl []⟩

/-- **C7.**  Batch processing is per-document: any document whose encoding
succeeds, whose OCR returns at least one page and whose chat call returns
text ends up with its full successful result in the store, no matter what
the other documents in the batch (before or after it) do — in particular
another document's OCR failure does not abort the batch. -/
theorem C7_batch_isolation (items : List BatchItem) (store : ResultStore)
    (xs ys : List BatchItem) (x : BatchItem) (ps : List Page) (t : String)
    (hsplit : items = xs ++ x :: ys) (henc : x.encOk = true)
    (hlast : ∀ y ∈ ys, y.name ≠ x.name)
    (hocr : x.ocr = .pages ps) (hps : 1 ≤ ps.length)
    (hchat : x.chat = .content t) :
    dictFind (start_processing items store) x.name =
      some { raw_ocr := some (fullMarkdown ps), pages_count := some ps.length,
             normalized := some t, error := none } := by
  subst hsplit
  rw [start_processing_append]
  have hx : start_processing (x :: ys) (start_processing xs store) =
      start_processing ys
        (dictInsert (start_processing xs store) x.name
          (process_document x.ocr x.chat).1) := by
    simp [start_processing, henc]
  rw [hx, dictFind_start_processing_of_name_ne ys _ x.name hlast,
    dictFind_dictInsert, hocr, hchat]
  have hpos : ps.length > 0 := hps
  simp [process_document, hpos]

theorem C7_batch_isolation_witness :
    dictFind
      (start_processing
        [{ name := "doc1", bytes := [0], mime := none, encOk := true,
           ocr := .pages [⟨"p1"⟩], chat := .content "n1" },
         { name := "doc2", bytes := [1], mime := none, encOk := true,
           ocr := .raises "ocr down", chat := .content "n2" },
         { name := "doc3", bytes := [2], mime := none, encOk := true,
           ocr := .pages [⟨"p3"⟩], chat := .content "n3" }] []) "doc1" =
      some { raw_ocr := some (fullMarkdown [⟨"p1"⟩]), pages_count := some 1,
             normalized := some "n1", error := none } ∧
    dictFind
      (start_processing
        [{ name := "doc1", bytes := [0], mime := none, encOk := true,
           ocr := .pages [⟨"p1"⟩], chat := .content "n1" },
         { name := "doc2", bytes := [1], mime := none, encOk := true,
           ocr := .raises "ocr down", chat := .content "n2" },
         { name := "doc3", bytes := [2], mime := none, encOk := true,
           ocr := .pages [⟨"p3"⟩], chat := .content "n3" }] []) "doc3" =
      some { raw_ocr := some (fullMarkdown [⟨"p3"⟩]), pages_count := some 1,
             normalized := some "n3", error := none } := by
  constructor
  · exact C7_batch_isolation _ [] []
      [{ name := "doc2", bytes := [1], mime := none, encOk := true,
         ocr := .raises "ocr down", chat := .content "n2" },
       { name := "doc3", bytes := [2], mime := none, encOk := true,
         ocr := .pages [⟨"p3"⟩], chat := .content "n3" }]
      _ [⟨"p1"⟩] "n1" rfl rfl (by decide) rfl (by decide) rfl
  · exact C7_batch_isolation _ []
      [{ name := "doc1", bytes := [0], mime := none, encOk := true,
         ocr := .pages [⟨"p1"⟩], chat := .content "n1" },
       { name := "doc2", bytes := [1], mime := none, encOk := true,
         ocr := .raises "ocr down", chat := .content "n2" }]
      [] _ [⟨"p3"⟩] "n3" rfl rfl (by decide) rfl (by decide) rfl

/-- **C9.**  Two `put`s under the same name collapse to the second one:
the double insert equals a single insert of the second result, exactly one
entry carries the name, lookup returns the second result unmerged, and the
key (iteration) order is the insertion order of the underlying store. -/
theorem C9_put_last_write_wins (s : ResultStore) (n : String)
    (r1 r2 : DocumentResult) (h : (s.map Prod.fst).Nodup) :
    dictInsert (dictInsert s n r1) n r2 = dictInsert s n r2 ∧
    ((dictInsert (dictInsert s n r1) n r2).map Prod.fst).count n = 1 ∧
    dictFind (dictInsert (dictInsert s n r1) n r2) n = some r2 ∧
    (dictInsert (dictInsert s n r1) n r2).map Prod.fst =
      (if s.any (fun p => p.1 = n) then s.map Prod.fst
       else s.map Prod.fst ++ [n]) := by
  have hdd := dictInsert_dictInsert s n r1 r2
  refine ⟨hdd, ?_, ?_, ?_⟩
  · rw [hdd]; exact count_keys_dictInsert s n r2 h
  · rw [hdd]; exact dictFind_dictInsert s n r2
  · rw [hdd]; exact keys_dictInsert s n r2

theorem C9_put_last_write_wins_witness :
    (([("b", ({} : DocumentResult))] :
        ResultStore).map Prod.fst).Nodup ∧
    dictFind
      (dictInsert
        (dictInsert [("b", ({} : DocumentResult))] "a"
          { error := some "first" })
        "a" { normalized := some "second" }) "a" =
      some { normalized := some "second" } :=
  ⟨by decide,
    (C9_put_last_write_wins [("b", {})] "a" { error := some "first" }
      { normalized := some "second" } (by decide)).2.2.1⟩

/-- **C6.**  For every byte payload and every media type of the data model,
`encode_file_to_base64` deterministically yields
`data:<m>;base64,<base64(b)>`; decoding the base64 portion recovers the
bytes exactly, and the media type read back from the string is exactly the
declared one. -/
theorem C6_encode_roundtrip (bytes : List Nat) (m : String)
    (hb : ∀ x ∈ bytes, x < 256)
    (hm : m = "image/jpeg" ∨ m = "image/png" ∨ m = "application/pdf") :
    encode_file_to_base64 bytes m =
      "data:" ++ m ++ ";base64," ++ String.mk (b64encode bytes) ∧
    b64decode (b64encode bytes) = bytes ∧
    dataUriMediaType (encode_file_to_base64 bytes m) = some m := by
  have hsemi : ';' ∉ m.data := by
    rcases hm with h | h | h <;> subst h <;> decide
  exact ⟨rfl, b64decode_b64encode bytes hb, dataUriMediaType_encode bytes m hsemi⟩

theorem C6_encode_roundtrip_witness :
    ((∀ x ∈ [77, 97, 110], x < 256) ∧
      ("application/pdf" = "image/jpeg" ∨ "application/pdf" = "image/png" ∨
        "application/pdf" = "application/pdf")) ∧
    b64decode (b64encode [77, 97, 110]) = [77, 97, 110] ∧
    dataUriMediaType (encode_file_to_base64 [77, 97, 110] "application/pdf") =
      some "application/pdf" :=
  ⟨⟨by decide, Or.inr (Or.inr rfl)⟩,
    (C6_encode_roundtrip [77, 97, 110] "application/pdf" (by decide)
      (Or.inr (Or.inr rfl))).2.1,
    (C6_encode_roundtrip [77, 97, 110] "application/pdf" (by decide)
      (Or.inr (Or.inr rfl))).2.2⟩

end MistralOcrApp
